import Mathlib

/-!
# military-intel-worker.js: cadence scheduler, source clients, analysis runs, threat score

A shallow embedding of `src/military-intel-worker.js`.

* JavaScript values are the type `JSVal` (JSON values plus `undefined`).  The numbers of a
  `JSVal` are the finite ones, as rationals: rounding of IEEE doubles is not modelled.  The
  score computation is also given over `JSNum`, which adds `NaN` and the two infinities.
* JavaScript strings are Lean strings (sequences of Unicode scalar values); the method
  `toLowerCase` is a parameter of the functions that call it.
* An awaited `fetch(...)` followed by `response.json()` is a `FetchOutcome`: the fetch
  rejects, or a response with a status arrives whose body either parses or does not.  The
  code never reads the status.
* `try { ... } catch (error) { ... }` is a computation in `Except String`, the string being
  `error.message`, followed by a `match` on its outcome.
* `new Date().toISOString()` is a parameter of the function that calls it.
-/

namespace MilitaryIntel

/-! ## Cadence scheduler (`scheduled`, lines 119-176) -/

/-- The two analysis tiers: `runMiniAnalysis` and `runDeepAnalysis`. -/
inductive Tier where
  | mini
  | deep
  deriving DecidableEq, Repr

/-- Line 121: `const hour = now.getUTCHours() - 5`.  `getUTCHours()` is in 0..23, the
difference is a JavaScript number that may be negative. -/
def estHour (utcHours : Nat) : Int := (utcHours : Int) - 5

/-- Lines 126-175 of `scheduled`, after the three clock reads: the calls
`ctx.waitUntil(run...Analysis(env))` it makes, in order.  `hour` is an integer, so the tests
`hour >= 9.5` and `hour < 9.5` are `19 ≤ 2 * hour` and `2 * hour < 19`; `hour % 2` is the
truncating remainder `Int.tmod`. -/
def scheduledAt (hour : Int) (minute day : Nat) : List Tier :=
  let isWeekend := day == 0 || day == 6
  let isMarketHours := !isWeekend && decide (19 ≤ 2 * hour) && decide (hour < 16)
  let isAfterMarket := !isWeekend && decide (hour ≥ 16) && decide (hour < 19)
  let isEvening := decide (hour ≥ 19) || decide (hour < 6)
  let isPreMarket := !isWeekend && decide (hour ≥ 6) && decide (2 * hour < 19)
  if isMarketHours then
    (if minute == 0 || minute == 30 then [Tier.mini] else [])
      ++ (if minute == 0 then [Tier.deep] else [])
  else if isAfterMarket then
    if minute == 0 then
      (if Int.tmod hour 2 == 0 then [Tier.deep] else [Tier.mini])
    else []
  else if isEvening then
    if minute == 0 then
      (if hour == 21 || hour == 6 then [Tier.deep] else [])
        ++ (if [19, 22, 1, 4].contains hour then [Tier.mini] else [])
    else []
  else if isPreMarket then
    if minute == 0 then [Tier.mini] else []
  else []

/-- The handler `scheduled` at a tick whose UTC clock reads `utcHours:utcMinutes` on weekday
`utcDay` (0 = Sunday .. 6 = Saturday, as `getUTCDay()`). -/
def scheduled (utcHours utcMinutes utcDay : Nat) : List Tier :=
  scheduledAt (estHour utcHours) utcMinutes utcDay

/-- The field `runMini` of the schedule decision. -/
def runsMini (ts : List Tier) : Bool := ts.contains Tier.mini

/-- The field `runDeep` of the schedule decision. -/
def runsDeep (ts : List Tier) : Bool := ts.contains Tier.deep

/-! ## JavaScript values -/

/-- A JavaScript value as this program meets them: a JSON value or `undefined`. -/
inductive JSVal where
  | undefined
  | null
  | bool (b : Bool)
  | num (x : ℚ)
  | str (s : String)
  | arr (xs : List JSVal)
  | obj (kvs : List (String × JSVal))

namespace JSVal

/-- The value stored under `name` in the property list of an object, `undefined` if none. -/
def lookup (name : String) : List (String × JSVal) → JSVal
  | [] => undefined
  | (k, v) :: rest => if k = name then v else lookup name rest

/-- The assignment `o[name] = v` on a property list: an existing key keeps its position. -/
def setProp (name : String) (v : JSVal) : List (String × JSVal) → List (String × JSVal)
  | [] => [(name, v)]
  | (k, w) :: rest => if k = name then (k, v) :: rest else (k, w) :: setProp name v rest

/-- Property read `v.name` for a data property: a `TypeError` on `undefined` and `null`, the
stored value on an object, `undefined` on every other value (none of the names this program
reads as data, such as `articles`, `states`, `dp`, `choices`, is a built-in property). -/
def prop (v : JSVal) (name : String) : Except String JSVal :=
  match v with
  | undefined => .error ("Cannot read properties of undefined (reading " ++ name ++ ")")
  | null => .error ("Cannot read properties of null (reading " ++ name ++ ")")
  | obj kvs => .ok (lookup name kvs)
  | _ => .ok undefined

/-- Indexed read `v[i]`: an element of an array, a one-character string of a string, the
property named by the digits of `i` of an object. -/
def index (v : JSVal) (i : Nat) : Except String JSVal :=
  match v with
  | undefined => .error ("Cannot read properties of undefined (reading " ++ toString i ++ ")")
  | null => .error ("Cannot read properties of null (reading " ++ toString i ++ ")")
  | arr xs => .ok (xs.getD i undefined)
  | str s => .ok (match s.toList.get? i with
      | some c => str (String.singleton c)
      | none => undefined)
  | obj kvs => .ok (lookup (toString i) kvs)
  | _ => .ok undefined

/-- JavaScript truthiness (`ToBoolean`). -/
def truthy : JSVal → Bool
  | undefined => false
  | null => false
  | bool b => b
  | num x => decide (x ≠ 0)
  | str s => decide (s ≠ "")
  | arr _ => true
  | obj _ => true

end JSVal

open JSVal

/-- The expression `s.startsWith(pre)`. -/
def startsWith (s pre : String) : Bool := pre.toList.isPrefixOf s.toList

/-- The expression `s.includes(kw)`: `kw` occurs in `s` as a contiguous run. -/
def includes (s kw : String) : Bool := s.toList.tails.any fun t => kw.toList.isPrefixOf t

/-- The characters `String.prototype.trim` removes: white space and line terminators. -/
def isJSWhiteSpace (c : Char) : Bool :=
  let n := c.toNat
  n == 0x09 || n == 0x0A || n == 0x0B || n == 0x0C || n == 0x0D || n == 0x20 || n == 0xA0 ||
  n == 0x1680 || (0x2000 ≤ n && n ≤ 0x200A) || n == 0x2028 || n == 0x2029 || n == 0x202F ||
  n == 0x205F || n == 0x3000 || n == 0xFEFF

/-- The expression `s.trim()`. -/
def trim (s : String) : String :=
  String.mk ((s.toList.dropWhile isJSWhiteSpace).reverse.dropWhile isJSWhiteSpace).reverse

/-- The expression `xs.filter(p)` for a callback that may throw: elements are tested in order
and the first exception ends the loop. -/
def filterE {α : Type} (p : α → Except String Bool) : List α → Except String (List α)
  | [] => .ok []
  | x :: xs =>
    match p x with
    | .error m => .error m
    | .ok b =>
      match filterE p xs with
      | .error m => .error m
      | .ok rest => .ok (if b then x :: rest else rest)

/-- The expression `xs.map(f)` for a callback that may throw. -/
def mapE {α β : Type} (f : α → Except String β) : List α → Except String (List β)
  | [] => .ok []
  | x :: xs =>
    match f x with
    | .error m => .error m
    | .ok y =>
      match mapE f xs with
      | .error m => .error m
      | .ok rest => .ok (y :: rest)

/-! ## Source clients (lines 354-481) -/

/-- What `await fetch(...)` followed by `await response.json()` can do: the fetch rejects
(`rejected`, with the message of the error), or a response with HTTP status `status` arrives
and `response.json()` either rejects with a `SyntaxError` (`Except.error message`) or yields
the parsed body. -/
inductive FetchOutcome where
  | rejected (message : String)
  | response (status : Nat) (body : Except String JSVal)

/-- The expression `await (await fetch(...)).json()` inside a `try`: the status is not looked at. -/
def fetchJson : FetchOutcome → Except String JSVal
  | .rejected m => .error m
  | .response _ body => body

/-- The fallback of `getNews`, line 365. -/
def newsFallback (message : String) : JSVal :=
  obj [("error", str message), ("articles", arr [])]

/-- The function `getNews`, lines 354-367: the parsed body as it is, or the fallback. -/
def getNews (o : FetchOutcome) : JSVal :=
  match fetchJson o with
  | .ok body => body
  | .error m => newsFallback m

/-- The fallback of `getStockData`, line 397. -/
def quoteFallback (symbol message : String) : JSVal :=
  obj [("symbol", str symbol), ("error", str message)]

/-- The `try` block of `getStockData`, lines 383-395. -/
def getStockDataBody (symbol : String) (o : FetchOutcome) (now : String) :
    Except String JSVal := do
  let data ← fetchJson o
  let c ← prop data "c"
  let d ← prop data "d"
  let dp ← prop data "dp"
  let h ← prop data "h"
  let l ← prop data "l"
  pure (obj [("symbol", str symbol), ("price", c), ("change", d), ("changePercent", dp),
    ("high", h), ("low", l), ("timestamp", str now)])

/-- The function `getStockData`, lines 381-399. -/
def getStockData (symbol : String) (o : FetchOutcome) (now : String) : JSVal :=
  match getStockDataBody symbol o now with
  | .ok v => v
  | .error m => quoteFallback symbol m

/-- The watch-list of `getDefenseStocks`, line 371. -/
def symbols : List String := ["LMT", "RTX", "NOC", "GD", "BA", "HII", "LHX"]

/-- The test `icao && (icao.startsWith('AE') || icao.startsWith('15') ||
icao.startsWith('16'))` of lines 411-415 on the value `icao`: a falsy value fails it, a string
is tested against the prefixes, any other truthy value has no `startsWith` method. -/
def isMilitaryIcao (icao : JSVal) : Except String Bool :=
  if truthy icao then
    match icao with
    | str s => .ok (startsWith s "AE" || startsWith s "15" || startsWith s "16")
    | _ => .error "icao.startsWith is not a function"
  else .ok false

/-- The filter callback of lines 408-416. -/
def isMilitary (state : JSVal) : Except String Bool :=
  match index state 0 with
  | .error m => .error m
  | .ok icao => isMilitaryIcao icao

/-- The expression `state[1]?.trim()`, line 418. -/
def callsignOf (s1 : JSVal) : Except String JSVal :=
  match s1 with
  | undefined => .ok undefined
  | null => .ok undefined
  | str s => .ok (str (trim s))
  | _ => .error "state[1]?.trim is not a function"

/-- The map callback of lines 416-425. -/
def mapState (state : JSVal) : Except String JSVal := do
  let icao ← index state 0
  let s1 ← index state 1
  let callsign ← callsignOf s1
  let country ← index state 2
  let longitude ← index state 5
  let latitude ← index state 6
  let altitude ← index state 7
  let velocity ← index state 9
  let timestamp ← index state 3
  pure (obj [("icao", icao), ("callsign", callsign), ("country", country),
    ("longitude", longitude), ("latitude", latitude), ("altitude", altitude),
    ("velocity", velocity), ("timestamp", timestamp)])

/-- The list `militaryFlights` of lines 408-425:
`data.states?.filter(...).map(...) || []`. -/
def militaryFlights (states : JSVal) : Except String (List JSVal) :=
  match states with
  | undefined => .ok []
  | null => .ok []
  | arr xs =>
    match filterE isMilitary xs with
    | .error m => .error m
    | .ok kept => mapE mapState kept
  | _ => .error "data.states?.filter is not a function"

/-- The `try` block of `getMilitaryFlights`, lines 404-430. -/
def getMilitaryFlightsBody (o : FetchOutcome) : Except String JSVal := do
  let data ← fetchJson o
  let states ← prop data "states"
  let flights ← militaryFlights states
  pure (obj [("count", num flights.length), ("flights", arr (flights.take 50))])

/-- The fallback of `getMilitaryFlights`, line 432. -/
def flightsFallback (message : String) : JSVal :=
  obj [("error", str message), ("count", num 0), ("flights", arr [])]

/-- The function `getMilitaryFlights`, lines 402-434. -/
def getMilitaryFlights (o : FetchOutcome) : JSVal :=
  match getMilitaryFlightsBody o with
  | .ok v => v
  | .error m => flightsFallback m

/-- The function `getNavyData`, lines 437-443. -/
def getNavyData : JSVal :=
  obj [("message", str "Navy tracking requires marine traffic API integration"),
    ("vessels", arr [])]

/-- The map callback of lines 469-476. -/
def mapPost (post : JSVal) : Except String JSVal := do
  let d ← prop post "data"
  let title ← prop d "title"
  let score ← prop d "score"
  let comments ← prop d "num_comments"
  let subreddit ← prop d "subreddit"
  let created ← prop d "created_utc"
  let url ← prop d "url"
  pure (obj [("title", title), ("score", score), ("comments", comments),
    ("subreddit", subreddit), ("created", created), ("url", url)])

/-- The expression `data.data?.children?.map(...) || []`, lines 469-476, on the value of
`data.data`. -/
def redditPosts (d : JSVal) : Except String (List JSVal) :=
  match d with
  | undefined => .ok []
  | null => .ok []
  | _ =>
    match prop d "children" with
    | .error m => .error m
    | .ok undefined => .ok []
    | .ok null => .ok []
    | .ok (arr xs) => mapE mapPost xs
    | .ok _ => .error "data.data?.children?.map is not a function"

/-- The `try` block of `getRedditIntel`, lines 448-477: the token exchange, then the search.
The credentials in `env` are taken to be strings `btoa` accepts. -/
def getRedditIntelBody (auth search : FetchOutcome) : Except String JSVal := do
  let authData ← fetchJson auth
  let _token ← prop authData "access_token"
  let data ← fetchJson search
  let d ← prop data "data"
  let posts ← redditPosts d
  pure (obj [("posts", arr posts)])

/-- The fallback of `getRedditIntel`, line 479. -/
def socialFallback (message : String) : JSVal :=
  obj [("error", str message), ("posts", arr [])]

/-- The function `getRedditIntel`, lines 446-481. -/
def getRedditIntel (auth search : FetchOutcome) : JSVal :=
  match getRedditIntelBody auth search with
  | .ok v => v
  | .error m => socialFallback m

/-- The providers as one run sees them: the outcome of each outbound call of the source
clients, and the clock read by `getStockData` for each symbol. -/
structure Sources where
  news : FetchOutcome
  quote : String → FetchOutcome
  quoteTime : String → String
  flights : FetchOutcome
  redditAuth : FetchOutcome
  redditSearch : FetchOutcome

/-- The function `getDefenseStocks`, lines 370-378: one `getStockData` per symbol of the
watch-list, joined by `Promise.all`; no call rejects, so the `catch` of line 375 is not entered.
-/
def getDefenseStocks (w : Sources) : JSVal :=
  arr (symbols.map fun symbol => getStockData symbol (w.quote symbol) (w.quoteTime symbol))

/-! ## Analysis runs (`runMiniAnalysis`, `runDeepAnalysis`, lines 180-316) -/

/-- The module variable `latestAnalysis`, lines 5-12. -/
structure LatestAnalysis where
  mini : JSVal
  deep : JSVal
  lastMiniRun : JSVal
  lastDeepRun : JSVal
  nextMiniRun : JSVal
  nextDeepRun : JSVal

/-- The value of `latestAnalysis` when the module is loaded. -/
def LatestAnalysis.initial : LatestAnalysis :=
  ⟨null, null, null, null, null, null⟩

/-- The expression `news.articles?.slice(0, cap) || []`, lines 192 and 258: the value printed
under the news heading of the prompt.  It throws when `news` is `null` or `undefined`, and when
`articles` is neither absent, an array nor a string (no `slice` method). -/
def promptArticles (news : JSVal) (cap : Nat) : Except String JSVal :=
  match prop news "articles" with
  | .error m => .error m
  | .ok undefined => .ok (arr [])
  | .ok null => .ok (arr [])
  | .ok (arr xs) => .ok (arr (xs.take cap))
  | .ok (str s) =>
    if s.toList.take cap = [] then .ok (arr []) else .ok (str (String.mk (s.toList.take cap)))
  | .ok _ => .error "news.articles?.slice is not a function"

/-- The request a run sends to the analysis endpoint: the model, the sampling temperature
and, heading by heading, the values that `JSON.stringify` prints into the prompt (the text
around them is constant). -/
structure AnalysisRequest where
  model : String
  temperature : ℚ
  sections : List (String × JSVal)

/-- The path `data.choices[0].message.content` of lines 227 and 302. -/
def replyContent (data : JSVal) : Except String JSVal := do
  let choices ← prop data "choices"
  let first ← index choices 0
  let message ← prop first "message"
  prop message "content"

/-- The call `JSON.parse(content)` of lines 227 and 302 on the value `content`.
`JSON.parse(undefined)` is a `SyntaxError` (the text `undefined` is not JSON) and
`JSON.parse(null)` is `null` (the text `null` is JSON); on every other value it is the
parameter `jsonParse`. -/
def parseContent (jsonParse : JSVal → Except String JSVal) (content : JSVal) :
    Except String JSVal :=
  match content with
  | undefined => .error "undefined is not valid JSON"
  | null => .ok null
  | c => jsonParse c

/-- Lines 226-227 and 301-302: `JSON.parse(data.choices[0].message.content)` on the reply of
the analysis endpoint. -/
def analysisReply (o : FetchOutcome) (jsonParse : JSVal → Except String JSVal) :
    Except String JSVal := do
  let data ← fetchJson o
  let content ← replyContent data
  parseContent jsonParse content

/-- The own enumerable properties that `{...v}` copies. -/
def spread : JSVal → List (String × JSVal)
  | obj kvs => kvs
  | arr xs => xs.enum.map fun p => (toString p.1, p.2)
  | str s => s.toList.enum.map fun p => (toString p.1, str (String.singleton p.2))
  | _ => []

/-- The expression `{...analysis, timestamp: t, model: m}`, lines 229-233 and 304-308. -/
def stamp (analysis : JSVal) (t m : String) : JSVal :=
  obj (setProp "model" (str m) (setProp "timestamp" (str t) (spread analysis)))

/-- The value `{ error: error.message }` of lines 239 and 314. -/
def errorResult (message : String) : JSVal := obj [("error", str message)]

/-- What a run leaves behind: the value it returns, `latestAnalysis` after it, and the
request it sent to the analysis endpoint (`none` when it ended before the call). -/
structure RunOutcome where
  result : JSVal
  state : LatestAnalysis
  request : Option AnalysisRequest

/-- The function `runMiniAnalysis`, lines 180-241.  `t₁` and `t₂` are the two clock reads of
lines 231 and 234. -/
def runMiniAnalysis (w : Sources) (analysis : FetchOutcome)
    (jsonParse : JSVal → Except String JSVal) (t₁ t₂ : String) (s : LatestAnalysis) :
    RunOutcome :=
  let news := getNews w.news
  let stocks := getDefenseStocks w
  let flights := getMilitaryFlights w.flights
  match promptArticles news 20 with
  | .error m => { result := errorResult m, state := s, request := none }
  | .ok articles =>
    let req : AnalysisRequest :=
      { model := "gpt-4o-mini", temperature := 7 / 10,
        sections := [("NEWS HEADLINES", articles), ("DEFENSE CONTRACTOR STOCKS", stocks),
          ("MILITARY FLIGHT ACTIVITY", flights)] }
    match analysisReply analysis jsonParse with
    | .error m => { result := errorResult m, state := s, request := some req }
    | .ok a =>
      let r := stamp a t₁ "gpt-4o-mini"
      { result := r, state := { s with mini := r, lastMiniRun := str t₂ }, request := some req }

/-- The function `runDeepAnalysis`, lines 244-316.  `t₁` and `t₂` are the two clock reads of
lines 306 and 309. -/
def runDeepAnalysis (w : Sources) (analysis : FetchOutcome)
    (jsonParse : JSVal → Except String JSVal) (t₁ t₂ : String) (s : LatestAnalysis) :
    RunOutcome :=
  let news := getNews w.news
  let stocks := getDefenseStocks w
  let flights := getMilitaryFlights w.flights
  let navy := getNavyData
  let reddit := getRedditIntel w.redditAuth w.redditSearch
  match promptArticles news 30 with
  | .error m => { result := errorResult m, state := s, request := none }
  | .ok articles =>
    let req : AnalysisRequest :=
      { model := "gpt-4o", temperature := 5 / 10,
        sections := [("NEWS & GEOPOLITICAL INTEL", articles),
          ("DEFENSE INDUSTRY INDICATORS", stocks), ("MILITARY AIR ACTIVITY", flights),
          ("NAVAL MOVEMENTS", navy), ("SOCIAL INTELLIGENCE (REDDIT)", reddit)] }
    match analysisReply analysis jsonParse with
    | .error m => { result := errorResult m, state := s, request := some req }
    | .ok a =>
      let r := stamp a t₁ "gpt-4o"
      { result := r, state := { s with deep := r, lastDeepRun := str t₂ }, request := some req }

/-- The run of tier `T`. -/
def runTier (T : Tier) (w : Sources) (analysis : FetchOutcome)
    (jsonParse : JSVal → Except String JSVal) (t₁ t₂ : String) (s : LatestAnalysis) :
    RunOutcome :=
  match T with
  | .mini => runMiniAnalysis w analysis jsonParse t₁ t₂ s
  | .deep => runDeepAnalysis w analysis jsonParse t₁ t₂ s

/-- The analysis step of a run fails: the fetch rejects, the reply body is not JSON, reading
`choices[0].message.content` of the reply throws or yields `undefined`, or `JSON.parse` of
that content throws. -/
def AnalysisFails (o : FetchOutcome) (jsonParse : JSVal → Except String JSVal) : Prop :=
  (∃ m, o = .rejected m) ∨
  (∃ status m, o = .response status (.error m)) ∨
  (∃ status data, o = .response status (.ok data) ∧
    ((∃ m, replyContent data = .error m) ∨ replyContent data = .ok undefined)) ∨
  (∃ status data c m, o = .response status (.ok data) ∧ replyContent data = .ok c ∧
    parseContent jsonParse c = .error m)

/-- A reply of the analysis endpoint whose message carries the content `null`. -/
def replyNullContent : JSVal :=
  obj [("id", str "chatcmpl-1"),
    ("choices", arr [obj [("index", num 0),
      ("message", obj [("role", str "assistant"), ("content", null)]),
      ("finish_reason", str "stop")]])]

/-! ## Heuristic score (`calculateThreatScore`, lines 319-351) -/

/-- A JavaScript number as the score computation meets them: `NaN`, an infinity, or a finite
value (a rational: rounding is not modelled). -/
inductive JSNum where
  | nan
  | negInf
  | fin (q : ℚ)
  | posInf

namespace JSNum

/-- The expression `a + b`. -/
def add : JSNum → JSNum → JSNum
  | fin a, fin b => fin (a + b)
  | nan, _ => nan
  | _, nan => nan
  | posInf, negInf => nan
  | negInf, posInf => nan
  | posInf, _ => posInf
  | _, posInf => posInf
  | negInf, _ => negInf
  | _, negInf => negInf

/-- The sign of a number that is not `NaN`: -1, 0 or 1. -/
def sign : JSNum → Int
  | fin q => if q < 0 then -1 else if q = 0 then 0 else 1
  | posInf => 1
  | negInf => -1
  | nan => 0

/-- The expression `a * b`. -/
def mul : JSNum → JSNum → JSNum
  | fin a, fin b => fin (a * b)
  | nan, _ => nan
  | _, nan => nan
  | a, b =>
    if sign a * sign b = 0 then nan else if sign a * sign b = 1 then posInf else negInf

/-- The expression `a / b` for finite `a` and `b`, `b` not the negative zero: `0 / 0` is
`NaN`, another division by zero an infinity. -/
def div (a b : ℚ) : JSNum :=
  if b = 0 then (if a = 0 then nan else if 0 < a then posInf else negInf) else fin (a / b)

/-- The expression `Math.max(a, b)`: `NaN` as soon as an argument is `NaN`. -/
def max : JSNum → JSNum → JSNum
  | nan, _ => nan
  | _, nan => nan
  | posInf, _ => posInf
  | _, posInf => posInf
  | negInf, b => b
  | a, negInf => a
  | fin a, fin b => fin (Max.max a b)

/-- The expression `Math.min(a, b)`: `NaN` as soon as an argument is `NaN`. -/
def min : JSNum → JSNum → JSNum
  | nan, _ => nan
  | _, nan => nan
  | negInf, _ => negInf
  | _, negInf => negInf
  | posInf, b => b
  | a, posInf => a
  | fin a, fin b => fin (Min.min a b)

/-- The number is finite and lies in `[lo, hi]`. -/
def InRange (lo hi : ℚ) : JSNum → Prop
  | fin q => lo ≤ q ∧ q ≤ hi
  | _ => False

end JSNum

/-- An entry of the list `getDefenseStocks` returns, as `calculateThreatScore` reads it: a
quote `{symbol, price, change, changePercent, high, low, timestamp}` whose `changePercent`
is a number or absent (`none`), or the fallback `{symbol, error}`. -/
inductive QuoteEntry where
  | quoted (symbol : String) (changePercent : Option ℚ)
  | failed (symbol : String) (error : String)

/-- The expression `s.changePercent || 0`, line 337. -/
def QuoteEntry.changePercentOrZero : QuoteEntry → ℚ
  | .quoted _ (some x) => if x ≠ 0 then x else 0
  | .quoted _ none => 0
  | .failed _ _ => 0

/-- The keyword list of line 330. -/
def militaryKeywords : List String :=
  ["strike", "invasion", "troops", "deployment", "conflict", "war"]

/-- The filter callback of lines 331-333,
`militaryKeywords.some(kw => article.title?.toLowerCase().includes(kw))`; `toLowerCase` is
the method `String.prototype.toLowerCase`. -/
def isMilitaryHeadline (toLowerCase : String → String) (article : JSVal) :
    Except String Bool :=
  match prop article "title" with
  | .error m => .error m
  | .ok undefined => .ok false
  | .ok null => .ok false
  | .ok (str s) => .ok (militaryKeywords.any fun kw => includes (toLowerCase s) kw)
  | .ok _ => .error "article.title?.toLowerCase is not a function"

/-- The value `newsScore` of lines 331-333:
`news.articles?.slice(0, 20).filter(...).length || 0`. -/
def newsScore (toLowerCase : String → String) (news : JSVal) : Except String Nat :=
  match prop news "articles" with
  | .error m => .error m
  | .ok undefined => .ok 0
  | .ok null => .ok 0
  | .ok (arr xs) =>
    match filterE (isMilitaryHeadline toLowerCase) (xs.take 20) with
    | .error m => .error m
    | .ok hits => .ok hits.length
  | .ok (str _) => .error "news.articles?.slice(...).filter is not a function"
  | .ok _ => .error "news.articles?.slice is not a function"

/-- The value `avgStockChange` of line 337:
`stocks.reduce((sum, s) => sum + (s.changePercent || 0), 0) / stocks.length`. -/
def avgStockChange (stocks : List QuoteEntry) : JSNum :=
  JSNum.div (stocks.foldl (fun sum s => sum + s.changePercentOrZero) 0) stocks.length

/-- What `calculateThreatScore` returns: the object of lines 340-347, or the object
`{ error: error.message, score: 50 }` of line 349. -/
inductive ScoreResult where
  | computed (score : JSNum) (timestamp : String) (newsActivity : Nat) (defenseStocks : JSNum)
  | failed (error : String)

/-- The field `score` of the result. -/
def ScoreResult.score : ScoreResult → JSNum
  | .computed score _ _ _ => score
  | .failed _ => .fin 50

/-- The function `calculateThreatScore`, lines 319-351, after its two source calls returned
`news` and `stocks`. -/
def calculateThreatScore (toLowerCase : String → String) (news : JSVal)
    (stocks : List QuoteEntry) (now : String) : ScoreResult :=
  match newsScore toLowerCase news with
  | .error m => .failed m
  | .ok hits =>
    let avg := avgStockChange stocks
    let score := JSNum.add (.fin (50 + (hits : ℚ) * 2)) (JSNum.mul avg (.fin 10))
    .computed (JSNum.min (.fin 100) (JSNum.max (.fin 0) score)) now hits avg

/-- Follows the spec's words (section 4.3): the mean of `changePercent` over the successfully
quoted symbols, entries with an error excluded from the sum and from the count, and 0 when no
symbol was quoted successfully. -/
def specStockFactor (stocks : List QuoteEntry) : ℚ :=
  let quotedChanges := stocks.filterMap fun s =>
    match s with
    | .quoted _ c => some (c.getD 0)
    | .failed _ _ => none
  if quotedChanges.length = 0 then 0 else quotedChanges.sum / quotedChanges.length

/-- The `changePercent` of an entry that has one: what the entry adds to the sum of line 337. -/
def QuoteEntry.quotedChange : QuoteEntry → Option ℚ
  | .quoted _ (some x) => some x
  | .quoted _ none => none
  | .failed _ _ => none

/-- The entry is a fallback `{symbol, error}`. -/
def QuoteEntry.isFailed : QuoteEntry → Bool
  | .quoted _ _ => false
  | .failed _ _ => true

/-- One successful quote of 7 percent and six fallback entries, in the order of the
watch-list. -/
def oneQuotedSixFailed : List QuoteEntry :=
  [.quoted "LMT" (some 7), .failed "RTX" "fetch failed", .failed "NOC" "fetch failed",
   .failed "GD" "fetch failed", .failed "BA" "fetch failed", .failed "HII" "fetch failed",
   .failed "LHX" "fetch failed"]

/-! ### The score over all JavaScript numbers

`QuoteEntry` holds a finite `changePercent`.  `JSON.parse` turns a number literal beyond the
double range, such as `1e999`, into an infinity, so a quote body can also carry an infinite
`dp`.  `WideQuoteEntry` admits these values; on entries with a finite `changePercent` the
functions below agree with `avgStockChange` and `calculateThreatScore`. -/

/-- The expression `a / b` for any `a` and a finite `b` that is not the negative zero. -/
def JSNum.over (a : JSNum) (b : ℚ) : JSNum :=
  match a with
  | .nan => .nan
  | .fin q => JSNum.div q b
  | .posInf => if b < 0 then .negInf else .posInf
  | .negInf => if b < 0 then .posInf else .negInf

/-- An entry of the list `getDefenseStocks` returns, as `calculateThreatScore` reads it, with
the `changePercent` of a quote any JavaScript number or absent (`none`). -/
inductive WideQuoteEntry where
  | quoted (symbol : String) (changePercent : Option JSNum)
  | failed (symbol : String) (error : String)

/-- The expression `s.changePercent || 0`, line 337: `undefined`, `0` and `NaN` are falsy. -/
def WideQuoteEntry.changePercentOrZero : WideQuoteEntry → JSNum
  | .quoted _ (some (.fin x)) => if x ≠ 0 then .fin x else .fin 0
  | .quoted _ (some .posInf) => .posInf
  | .quoted _ (some .negInf) => .negInf
  | .quoted _ (some .nan) => .fin 0
  | .quoted _ none => .fin 0
  | .failed _ _ => .fin 0

/-- The value `avgStockChange` of line 337 on entries of any `changePercent`. -/
def avgStockChangeWide (stocks : List WideQuoteEntry) : JSNum :=
  JSNum.over (stocks.foldl (fun sum s => JSNum.add sum s.changePercentOrZero) (.fin 0))
    stocks.length

/-- The function `calculateThreatScore`, lines 319-351, after its two source calls returned
`news` and `stocks`, on entries of any `changePercent`. -/
def calculateThreatScoreWide (toLowerCase : String → String) (news : JSVal)
    (stocks : List WideQuoteEntry) (now : String) : ScoreResult :=
  match newsScore toLowerCase news with
  | .error m => .failed m
  | .ok hits =>
    let avg := avgStockChangeWide stocks
    let score := JSNum.add (.fin (50 + (hits : ℚ) * 2)) (JSNum.mul avg (.fin 10))
    .computed (JSNum.min (.fin 100) (JSNum.max (.fin 0) score)) now hits avg

/-- An entry with a finite `changePercent` among the entries of any `changePercent`. -/
def QuoteEntry.widen : QuoteEntry → WideQuoteEntry
  | .quoted symbol c => .quoted symbol (c.map JSNum.fin)
  | .failed symbol e => .failed symbol e

/-- The seven entries `getDefenseStocks` returns when the quote bodies are `{"dp": 1e999}` for
LMT, `{"dp": -1e999}` for RTX and `{"dp": 1}` for the other five symbols. -/
def oppositeInfinities : List WideQuoteEntry :=
  [.quoted "LMT" (some .posInf), .quoted "RTX" (some .negInf), .quoted "NOC" (some (.fin 1)),
   .quoted "GD" (some (.fin 1)), .quoted "BA" (some (.fin 1)), .quoted "HII" (some (.fin 1)),
   .quoted "LHX" (some (.fin 1))]

/-! ## Vocabulary of the flight-filter statements -/

/-- The field `flights` of what `getMilitaryFlights` returns. -/
def flightsOf (r : JSVal) : List JSVal :=
  match r with
  | obj kvs =>
    match lookup "flights" kvs with
    | arr fl => fl
    | _ => []
  | _ => []

/-- The state vector passes the filter of lines 408-416: its identifier is a string that
starts with `AE`, `15` or `16`. -/
def passesFilter (state : JSVal) : Bool :=
  match isMilitary state with
  | .ok true => true
  | _ => false

/-- The callbacks of `getMilitaryFlights` do not throw on the state vector: the filter test
returns, and when it returns `true` the map callback returns. -/
def WellFormedState (state : JSVal) : Prop :=
  (∃ b, isMilitary state = .ok b) ∧ (isMilitary state = .ok true → ∃ f, mapState state = .ok f)

/-- The object the map callback builds, `undefined` where it throws. -/
def mapStateD (state : JSVal) : JSVal :=
  match mapState state with
  | .ok f => f
  | .error _ => undefined

/-- A state vector of the OpenSky layout with identifier `icao` and callsign `callsign`. -/
def stateVector (icao callsign : String) : JSVal :=
  arr [str icao, str callsign, str "United States", num 1700000000, num 1700000000,
    num (-77), num 38, num 10000, bool false, num 230]

/-- The object `getMilitaryFlights` maps `stateVector icao callsign` to, `callsign` being
already trimmed. -/
def flightRecord (icao callsign : String) : JSVal :=
  obj [("icao", str icao), ("callsign", str callsign), ("country", str "United States"),
    ("longitude", num (-77)), ("latitude", num 38), ("altitude", num 10000),
    ("velocity", num 230), ("timestamp", num 1700000000)]

/-- A feed of 51 state vectors that all pass the filter: 50 with identifier `AE0001`, then
one with identifier `16FFFF`. -/
def feed51 : JSVal :=
  obj [("time", num 1700000000),
    ("states", arr (List.replicate 50 (stateVector "AE0001" "RCH001  ")
      ++ [stateVector "16FFFF" "NAVY01  "]))]

/-- A feed whose first entry is `null` and whose second entry passes the filter. -/
def feedWithNull : JSVal :=
  obj [("time", num 1700000000), ("states", arr [null, stateVector "AE1234" "RCH123  "])]

/-- A feed of two state vectors: one passes the filter, one does not. -/
def feed2 : JSVal :=
  obj [("time", num 1700000000),
    ("states", arr [stateVector "a0b1c2" "UAL12   ", stateVector "AE1234" "RCH123  "])]

/-- Providers that are all unreachable: every outbound call of a source client rejects. -/
def unreachableSources : Sources where
  news := .rejected "fetch failed"
  quote := fun _ => .rejected "fetch failed"
  quoteTime := fun _ => "2024-01-01T00:00:00.000Z"
  flights := .rejected "fetch failed"
  redditAuth := .rejected "fetch failed"
  redditSearch := .rejected "fetch failed"

/-- A value of `latestAnalysis` after one successful mini run. -/
def afterOneMiniRun : LatestAnalysis :=
  { LatestAnalysis.initial with
    mini := obj [("threatLevel", num 40), ("timestamp", str "2024-01-01T00:00:00.000Z"),
      ("model", str "gpt-4o-mini")]
    lastMiniRun := str "2024-01-01T00:00:00.001Z" }

/-! ## Scheduler theorems -/

/-- C3 (code evaluated at the failing input): the hour tested at a tick at 02:00 UTC is -3,
not 21, and the handler dispatches no tier on any day; likewise at 00:00 UTC and 03:00 UTC
the hours are -5 and -2 and nothing is dispatched. -/
theorem scheduled_utc_small_hours_dispatch_nothing :
    estHour 2 = -3 ∧ estHour 0 = -5 ∧ estHour 3 = -2 ∧
    ∀ day : Nat, scheduled 2 0 day = [] ∧ scheduled 0 0 day = [] ∧ scheduled 3 0 day = [] := by
  refine ⟨by decide, by decide, by decide, fun day => ?_⟩
  simp [scheduled, scheduledAt, estHour]

/-- The hour tested by the handler is never one of 19, 21, 22: it ranges over -5..18. -/
theorem estHour_range (utcHours : Nat) (h : utcHours < 24) :
    -5 ≤ estHour utcHours ∧ estHour utcHours ≤ 18 := by
  unfold estHour
  omega

/-- C4 (code evaluated at the failing input): at 09:30 on a Tuesday the handler dispatches
nothing, because the integer hour 9 fails `hour >= 9.5`. -/
theorem scheduledAt_0930_tuesday : scheduledAt 9 30 2 = [] := by
  decide

/-- Market hours as the code has them: on a weekday with hour in 10..15, mini is dispatched
iff the minute is 0 or 30 and deep iff the minute is 0. -/
theorem scheduledAt_market_hours (hour : Int) (minute day : Nat)
    (hday : day ≠ 0 ∧ day ≠ 6) (hlo : 10 ≤ hour) (hhi : hour < 16) :
    (runsMini (scheduledAt hour minute day) = true ↔ (minute = 0 ∨ minute = 30)) ∧
    (runsDeep (scheduledAt hour minute day) = true ↔ minute = 0) := by
  obtain ⟨h0, h6⟩ := hday
  have h1 : (19 : Int) ≤ 2 * hour := by omega
  by_cases hm0 : minute = 0
  · simp [scheduledAt, runsMini, runsDeep, h0, h6, h1, hhi, hm0]
  · by_cases hm30 : minute = 30
    · simp [scheduledAt, runsMini, runsDeep, h0, h6, h1, hhi, hm30]
    · simp [scheduledAt, runsMini, runsDeep, h0, h6, h1, hhi, hm0, hm30]

/-- C5 (code evaluated at the failing input): at 06:00 the deep tier is not dispatched on any
day; on a Wednesday the pre-market branch dispatches mini instead. -/
theorem scheduledAt_0600_no_deep :
    scheduledAt 6 0 3 = [Tier.mini] ∧ ∀ day : Nat, runsDeep (scheduledAt 6 0 day) = false := by
  refine ⟨by decide, fun day => ?_⟩
  by_cases h0 : day = 0
  · subst h0; decide
  · by_cases h6 : day = 6
    · subst h6; decide
    · simp [scheduledAt, runsDeep, h0, h6]

/-- The evening branch as the code has it: at minute 0 of an hour in 19..23 or 0..5, on any
day, deep is dispatched exactly at 21 and mini exactly at 19, 22, 1, 4. -/
theorem scheduledAt_evening (hour : Int) (day : Nat)
    (h : (19 ≤ hour ∧ hour ≤ 23) ∨ (0 ≤ hour ∧ hour ≤ 5)) :
    (runsDeep (scheduledAt hour 0 day) = true ↔ hour = 21) ∧
    (runsMini (scheduledAt hour 0 day) = true ↔
      (hour = 19 ∨ hour = 22 ∨ hour = 1 ∨ hour = 4)) := by
  have hcases : hour = 19 ∨ hour = 20 ∨ hour = 21 ∨ hour = 22 ∨ hour = 23 ∨ hour = 0 ∨
      hour = 1 ∨ hour = 2 ∨ hour = 3 ∨ hour = 4 ∨ hour = 5 := by omega
  by_cases h0 : day = 0
  · subst h0
    rcases hcases with h | h | h | h | h | h | h | h | h | h | h <;> subst h <;> decide
  · by_cases h6 : day = 6
    · subst h6
      rcases hcases with h | h | h | h | h | h | h | h | h | h | h <;> subst h <;> decide
    · rcases hcases with h | h | h | h | h | h | h | h | h | h | h <;> subst h <;>
        simp [scheduledAt, runsDeep, runsMini, h0, h6]

/-- C6: for every hour in 16..18 and every minute, on a weekday the handler dispatches
exactly one tier at minute 0 (deep alone when the hour is even, mini alone when it is odd)
and nothing at any other minute; on a weekend day it dispatches nothing. -/
theorem scheduledAt_after_market (hour : Int) (minute day : Nat)
    (hlo : 16 ≤ hour) (hhi : hour ≤ 18) :
    ((day ≠ 0 ∧ day ≠ 6) →
      (minute = 0 → hour % 2 = 0 → scheduledAt hour minute day = [Tier.deep]) ∧
      (minute = 0 → hour % 2 = 1 → scheduledAt hour minute day = [Tier.mini]) ∧
      (minute ≠ 0 → scheduledAt hour minute day = [])) ∧
    ((day = 0 ∨ day = 6) → scheduledAt hour minute day = []) := by
  have hcases : hour = 16 ∨ hour = 17 ∨ hour = 18 := by omega
  have e16 : Int.tmod 16 2 = 0 := by decide
  have e17 : Int.tmod 17 2 = 1 := by decide
  have e18 : Int.tmod 18 2 = 0 := by decide
  refine ⟨fun ⟨h0, h6⟩ => ⟨?_, ?_, ?_⟩, ?_⟩
  · intro hm _
    rcases hcases with h | h | h <;> subst h <;> subst hm <;>
      simp_all [scheduledAt]
  · intro hm _
    rcases hcases with h | h | h <;> subst h <;> subst hm <;>
      simp_all [scheduledAt]
  · intro hm
    rcases hcases with h | h | h <;> subst h <;> simp [scheduledAt, h0, h6, hm]
  · rintro (h | h) <;> subst h <;>
      rcases hcases with h | h | h <;> subst h <;> simp [scheduledAt]

/-- C6 at (17, 0, Tuesday) and (18, 0, Tuesday): mini alone, then deep alone. -/
theorem scheduledAt_after_market_witness :
    scheduledAt 17 0 2 = [Tier.mini] ∧ scheduledAt 18 0 2 = [Tier.deep] :=
  ⟨((scheduledAt_after_market 17 0 2 (by decide) (by decide)).1
      ⟨by decide, by decide⟩).2.1 rfl (by decide),
   ((scheduledAt_after_market 18 0 2 (by decide) (by decide)).1
      ⟨by decide, by decide⟩).1 rfl (by decide)⟩

/-! ## Source client theorems -/

/-- A failed outbound call makes the `try` block of a client throw with the message of the
failure. -/
theorem fetchJson_of_failed (o : FetchOutcome) (m : String)
    (h : o = .rejected m ∨ ∃ status, o = .response status (.error m)) :
    fetchJson o = .error m := by
  rcases h with h | ⟨status, h⟩ <;> subst h <;> rfl

/-- C9 as stated fails: a response with status 401 and a JSON body is not turned into a
fallback.  `getNews` returns the body as it is, `getStockData` a quote without an `error`
field, `getMilitaryFlights` an empty flight list without an `error` field. -/
theorem clients_ignore_status :
    (¬ ∃ m, getNews (.response 401 (.ok (obj [("status", str "error")]))) = newsFallback m) ∧
    (¬ ∃ m, getStockData "LMT" (.response 401 (.ok (obj [("error", str "Invalid API key")])))
      "2024-01-01T00:00:00.000Z" = quoteFallback "LMT" m) ∧
    (¬ ∃ m, getMilitaryFlights (.response 401 (.ok (obj [("status", str "error")])))
      = flightsFallback m) := by
  refine ⟨?_, ?_, ?_⟩
  · rintro ⟨m, h⟩
    simp [getNews, fetchJson, newsFallback] at h
  · rintro ⟨m, h⟩
    simp [getStockData, getStockDataBody, fetchJson, quoteFallback, JSVal.prop, lookup, bind,
      Except.bind, pure, Except.pure] at h
  · rintro ⟨m, h⟩
    simp [getMilitaryFlights, getMilitaryFlightsBody, fetchJson, flightsFallback, JSVal.prop,
      lookup, militaryFlights, bind, Except.bind, pure, Except.pure] at h

/-- C9 (amended): when the outbound call of a client fails because the fetch rejects or the
body of the response does not parse, whatever the status, the client returns its typed
fallback with the message of the failure; for `getRedditIntel` this holds for the token
exchange, and a failed search gives the fallback with some message. -/
theorem clients_fallback_on_failed_call (o other : FetchOutcome) (symbol now m : String)
    (h : o = .rejected m ∨ ∃ status, o = .response status (.error m)) :
    getNews o = newsFallback m ∧
    getStockData symbol o now = quoteFallback symbol m ∧
    getMilitaryFlights o = flightsFallback m ∧
    getRedditIntel o other = socialFallback m ∧
    ∃ msg, getRedditIntel other o = socialFallback msg := by
  have hf := fetchJson_of_failed o m h
  refine ⟨?_, ?_, ?_, ?_, ?_⟩
  · simp [getNews, hf]
  · simp [getStockData, getStockDataBody, hf, bind, Except.bind]
  · simp [getMilitaryFlights, getMilitaryFlightsBody, hf, bind, Except.bind]
  · simp [getRedditIntel, getRedditIntelBody, hf, bind, Except.bind]
  · unfold getRedditIntel getRedditIntelBody
    cases hauth : fetchJson other with
    | error e => exact ⟨e, by simp [bind, Except.bind]⟩
    | ok authData =>
      cases htok : prop authData "access_token" with
      | error e => exact ⟨e, by simp [bind, Except.bind, htok]⟩
      | ok token => exact ⟨m, by simp [bind, Except.bind, htok, hf]⟩

/-- C9 (amended) at a rejected fetch. -/
theorem clients_fallback_on_failed_call_witness :
    getNews (.rejected "network down") = newsFallback "network down" ∧
    getStockData "LMT" (.rejected "network down") "t" = quoteFallback "LMT" "network down" ∧
    getMilitaryFlights (.rejected "network down") = flightsFallback "network down" ∧
    getRedditIntel (.rejected "network down") (.rejected "x") = socialFallback "network down" ∧
    ∃ msg, getRedditIntel (.rejected "x") (.rejected "network down") = socialFallback msg :=
  clients_fallback_on_failed_call (.rejected "network down") (.rejected "x") "LMT" "t"
    "network down" (Or.inl rfl)

/-! ## Analysis run theorems -/

/-- C1 (code evaluated at the failing input): when the news provider answers with the JSON
value `null`, with any status, the run of either tier returns the error result of the
`TypeError` raised by `news.articles`, sends no request to the analysis endpoint and leaves
`latestAnalysis` as it was, whatever the other sources and the analysis endpoint do. -/
theorem run_news_null_returns_error (T : Tier) (w : Sources) (status : Nat)
    (analysis : FetchOutcome) (jsonParse : JSVal → Except String JSVal) (t₁ t₂ : String)
    (s : LatestAnalysis) :
    (runTier T { w with news := .response status (.ok null) } analysis jsonParse t₁ t₂ s).result
      = errorResult "Cannot read properties of null (reading articles)" ∧
    (runTier T { w with news := .response status (.ok null) } analysis jsonParse t₁ t₂ s).request
      = none ∧
    (runTier T { w with news := .response status (.ok null) } analysis jsonParse t₁ t₂ s).state
      = s := by
  cases T <;>
    simp [runTier, runMiniAnalysis, runDeepAnalysis, getNews, fetchJson, promptArticles,
      JSVal.prop]

/-- A failing analysis step makes `analysisReply` throw. -/
theorem analysisReply_of_fails (o : FetchOutcome) (jsonParse : JSVal → Except String JSVal)
    (h : AnalysisFails o jsonParse) : ∃ m, analysisReply o jsonParse = .error m := by
  rcases h with ⟨m, h⟩ | ⟨status, m, h⟩ | ⟨status, data, h, hc⟩ | ⟨status, data, c, m, h, hc, hp⟩
  · subst h; exact ⟨m, rfl⟩
  · subst h; exact ⟨m, rfl⟩
  · subst h
    rcases hc with ⟨m, hc⟩ | hc
    · exact ⟨m, by simp [analysisReply, fetchJson, hc, bind, Except.bind]⟩
    · exact ⟨_, by simp [analysisReply, fetchJson, hc, bind, Except.bind, parseContent]; rfl⟩
  · subst h
    exact ⟨m, by simp [analysisReply, fetchJson, hc, bind, Except.bind, hp]⟩

/-- C2 as stated fails: a reply whose `choices[0].message.content` is `null` does not make
the run fail.  `JSON.parse(null)` is `null`, the run of either tier returns
`{timestamp, model}`, not an error result, and overwrites the slot and the last-run time of
its tier. -/
theorem run_overwrites_state_on_null_content :
    replyContent replyNullContent = .ok null ∧
    (runTier .mini unreachableSources (.response 200 (.ok replyNullContent))
        (fun _ => .error "Unexpected token") "t1" "t2" afterOneMiniRun).result
      = obj [("timestamp", str "t1"), ("model", str "gpt-4o-mini")] ∧
    (runTier .mini unreachableSources (.response 200 (.ok replyNullContent))
        (fun _ => .error "Unexpected token") "t1" "t2" afterOneMiniRun).state
      = { afterOneMiniRun with
          mini := obj [("timestamp", str "t1"), ("model", str "gpt-4o-mini")]
          lastMiniRun := str "t2" } ∧
    (runTier .mini unreachableSources (.response 200 (.ok replyNullContent))
        (fun _ => .error "Unexpected token") "t1" "t2" afterOneMiniRun).state
      ≠ afterOneMiniRun ∧
    (runTier .deep unreachableSources (.response 200 (.ok replyNullContent))
        (fun _ => .error "Unexpected token") "t1" "t2" afterOneMiniRun).result
      = obj [("timestamp", str "t1"), ("model", str "gpt-4o")] ∧
    (runTier .deep unreachableSources (.response 200 (.ok replyNullContent))
        (fun _ => .error "Unexpected token") "t1" "t2" afterOneMiniRun).state
      = { afterOneMiniRun with
          deep := obj [("timestamp", str "t1"), ("model", str "gpt-4o")]
          lastDeepRun := str "t2" } ∧
    (runTier .deep unreachableSources (.response 200 (.ok replyNullContent))
        (fun _ => .error "Unexpected token") "t1" "t2" afterOneMiniRun).state
      ≠ afterOneMiniRun := by
  have hmini : (runTier .mini unreachableSources (.response 200 (.ok replyNullContent))
        (fun _ => .error "Unexpected token") "t1" "t2" afterOneMiniRun).state
      = { afterOneMiniRun with
          mini := obj [("timestamp", str "t1"), ("model", str "gpt-4o-mini")]
          lastMiniRun := str "t2" } := by rfl
  have hdeep : (runTier .deep unreachableSources (.response 200 (.ok replyNullContent))
        (fun _ => .error "Unexpected token") "t1" "t2" afterOneMiniRun).state
      = { afterOneMiniRun with
          deep := obj [("timestamp", str "t1"), ("model", str "gpt-4o")]
          lastDeepRun := str "t2" } := by rfl
  refine ⟨by rfl, by rfl, hmini, ?_, by rfl, hdeep, ?_⟩
  · rw [hmini]
    intro h
    have h2 := congrArg LatestAnalysis.lastMiniRun h
    simp [afterOneMiniRun] at h2
  · rw [hdeep]
    intro h
    have h2 := congrArg LatestAnalysis.lastDeepRun h
    simp [afterOneMiniRun, LatestAnalysis.initial] at h2

/-- C2 (amended): for each tier, a run whose analysis step fails (the fetch rejects, the reply
body is not JSON, reading `choices[0].message.content` of the reply throws or yields
`undefined`, or `JSON.parse` of that content throws) returns an error result
`{error: message}` and leaves `latestAnalysis` equal to its value before the run. -/
theorem failed_run_keeps_state (T : Tier) (w : Sources) (o : FetchOutcome)
    (jsonParse : JSVal → Except String JSVal) (t₁ t₂ : String) (s : LatestAnalysis)
    (h : AnalysisFails o jsonParse) :
    (∃ m, (runTier T w o jsonParse t₁ t₂ s).result = errorResult m) ∧
    (runTier T w o jsonParse t₁ t₂ s).state = s := by
  obtain ⟨m, hm⟩ := analysisReply_of_fails o jsonParse h
  cases T
  · unfold runTier runMiniAnalysis
    cases hp : promptArticles (getNews w.news) 20 with
    | error e => exact ⟨⟨e, by simp [hp]⟩, by simp [hp]⟩
    | ok articles => exact ⟨⟨m, by simp [hp, hm]⟩, by simp [hp, hm]⟩
  · unfold runTier runDeepAnalysis
    cases hp : promptArticles (getNews w.news) 30 with
    | error e => exact ⟨⟨e, by simp [hp]⟩, by simp [hp]⟩
    | ok articles => exact ⟨⟨m, by simp [hp, hm]⟩, by simp [hp, hm]⟩

/-- Every run ends in one of two ways: it returns an error result and leaves
`latestAnalysis` as it was, or the analysis reply parsed to a value `a`, the run returns `a`
stamped with the time and the model, and `latestAnalysis` differs from its old value in the
slot and the last-run time of the tier only. -/
theorem run_outcome_cases (w : Sources) (o : FetchOutcome)
    (jsonParse : JSVal → Except String JSVal) (t₁ t₂ : String) (s : LatestAnalysis) :
    ((∃ m, (runMiniAnalysis w o jsonParse t₁ t₂ s).result = errorResult m) ∧
        (runMiniAnalysis w o jsonParse t₁ t₂ s).state = s ∨
      ∃ a, analysisReply o jsonParse = .ok a ∧
        (runMiniAnalysis w o jsonParse t₁ t₂ s).result = stamp a t₁ "gpt-4o-mini" ∧
        (runMiniAnalysis w o jsonParse t₁ t₂ s).state
          = { s with mini := stamp a t₁ "gpt-4o-mini", lastMiniRun := str t₂ }) ∧
    ((∃ m, (runDeepAnalysis w o jsonParse t₁ t₂ s).result = errorResult m) ∧
        (runDeepAnalysis w o jsonParse t₁ t₂ s).state = s ∨
      ∃ a, analysisReply o jsonParse = .ok a ∧
        (runDeepAnalysis w o jsonParse t₁ t₂ s).result = stamp a t₁ "gpt-4o" ∧
        (runDeepAnalysis w o jsonParse t₁ t₂ s).state
          = { s with deep := stamp a t₁ "gpt-4o", lastDeepRun := str t₂ }) := by
  constructor
  · unfold runMiniAnalysis
    cases hp : promptArticles (getNews w.news) 20 with
    | error e => exact Or.inl ⟨⟨e, by simp [hp]⟩, by simp [hp]⟩
    | ok articles =>
      cases ha : analysisReply o jsonParse with
      | error e => exact Or.inl ⟨⟨e, by simp [hp, ha]⟩, by simp [hp, ha]⟩
      | ok a => exact Or.inr ⟨a, rfl, by simp [hp, ha], by simp [hp, ha]⟩
  · unfold runDeepAnalysis
    cases hp : promptArticles (getNews w.news) 30 with
    | error e => exact Or.inl ⟨⟨e, by simp [hp]⟩, by simp [hp]⟩
    | ok articles =>
      cases ha : analysisReply o jsonParse with
      | error e => exact Or.inl ⟨⟨e, by simp [hp, ha]⟩, by simp [hp, ha]⟩
      | ok a => exact Or.inr ⟨a, rfl, by simp [hp, ha], by simp [hp, ha]⟩

/-- C2 (amended) at a reply `{}` of the analysis endpoint (no `choices`), for the mini tier, after one
earlier successful run: the run returns an error result and the state is kept. -/
theorem failed_run_keeps_state_witness :
    (∃ m, (runTier .mini unreachableSources (.response 200 (.ok (obj [])))
      (fun _ => .error "Unexpected token") "t1" "t2" afterOneMiniRun).result = errorResult m) ∧
    (runTier .mini unreachableSources (.response 200 (.ok (obj [])))
      (fun _ => .error "Unexpected token") "t1" "t2" afterOneMiniRun).state = afterOneMiniRun :=
  failed_run_keeps_state .mini unreachableSources (.response 200 (.ok (obj [])))
    (fun _ => .error "Unexpected token") "t1" "t2" afterOneMiniRun
    (Or.inr (Or.inr (Or.inl ⟨200, obj [], rfl, Or.inl ⟨_, rfl⟩⟩)))

/-- Where the isolation holds: when the news call fails by a rejected fetch or a body that
does not parse, the run of either tier sends its request to the analysis endpoint, with an
empty article list and with the entries of the other sources as their clients returned
them. -/
theorem run_sends_request_after_failed_news_call (w : Sources) (analysis : FetchOutcome)
    (jsonParse : JSVal → Except String JSVal) (t₁ t₂ m : String) (s : LatestAnalysis)
    (h : w.news = .rejected m ∨ ∃ status, w.news = .response status (.error m)) :
    (runMiniAnalysis w analysis jsonParse t₁ t₂ s).request
      = some { model := "gpt-4o-mini", temperature := 7 / 10,
               sections := [("NEWS HEADLINES", arr []),
                 ("DEFENSE CONTRACTOR STOCKS", getDefenseStocks w),
                 ("MILITARY FLIGHT ACTIVITY", getMilitaryFlights w.flights)] } ∧
    (runDeepAnalysis w analysis jsonParse t₁ t₂ s).request
      = some { model := "gpt-4o", temperature := 5 / 10,
               sections := [("NEWS & GEOPOLITICAL INTEL", arr []),
                 ("DEFENSE INDUSTRY INDICATORS", getDefenseStocks w),
                 ("MILITARY AIR ACTIVITY", getMilitaryFlights w.flights),
                 ("NAVAL MOVEMENTS", getNavyData),
                 ("SOCIAL INTELLIGENCE (REDDIT)",
                   getRedditIntel w.redditAuth w.redditSearch)] } := by
  have hf := fetchJson_of_failed w.news m h
  have hn : getNews w.news = newsFallback m := by simp [getNews, hf]
  have hp : ∀ cap, promptArticles (newsFallback m) cap = .ok (arr []) := by
    intro cap
    simp [promptArticles, newsFallback, JSVal.prop, lookup]
  constructor
  · unfold runMiniAnalysis
    simp only [hn, hp]
    cases analysisReply analysis jsonParse <;> rfl
  · unfold runDeepAnalysis
    simp only [hn, hp]
    cases analysisReply analysis jsonParse <;> rfl

/-- The list `getDefenseStocks` builds has one entry per symbol of the watch-list: seven
entries, whatever the quote provider does. -/
theorem getDefenseStocks_seven_entries (w : Sources) :
    ∃ xs, getDefenseStocks w = arr xs ∧ xs.length = 7 :=
  ⟨_, rfl, by simp [symbols]⟩

/-! ## Score theorems -/

/-- The `reduce` of line 337 is the initial value plus the sum of the terms. -/
theorem foldl_changePercent (stocks : List QuoteEntry) (a : ℚ) :
    stocks.foldl (fun sum s => sum + s.changePercentOrZero) a
      = a + (stocks.map QuoteEntry.changePercentOrZero).sum := by
  induction stocks generalizing a with
  | nil => simp
  | cons s rest ih => simp [ih, add_assoc]

/-- Only the entries that carry a `changePercent` add to the sum. -/
theorem sum_changePercentOrZero (stocks : List QuoteEntry) :
    (stocks.map QuoteEntry.changePercentOrZero).sum
      = (stocks.filterMap QuoteEntry.quotedChange).sum := by
  induction stocks with
  | nil => simp
  | cons s rest ih =>
    cases s with
    | quoted symbol c =>
      cases c with
      | none => simp [QuoteEntry.changePercentOrZero, QuoteEntry.quotedChange, ih]
      | some x =>
        by_cases hx : x = 0 <;>
          simp [QuoteEntry.changePercentOrZero, QuoteEntry.quotedChange, ih, hx]
    | failed symbol e => simp [QuoteEntry.changePercentOrZero, QuoteEntry.quotedChange, ih]

/-- On a list that is not empty the stock factor is the finite quotient of line 337. -/
theorem avgStockChange_of_ne_nil (stocks : List QuoteEntry) (h : stocks ≠ []) :
    avgStockChange stocks
      = .fin ((stocks.filterMap QuoteEntry.quotedChange).sum / (stocks.length : ℚ)) := by
  have hlen : ((stocks.length : ℕ) : ℚ) ≠ 0 := by
    have : stocks.length ≠ 0 := by
      intro h0
      exact h (List.length_eq_zero.mp h0)
    exact_mod_cast this
  simp [avgStockChange, JSNum.div, hlen, foldl_changePercent, sum_changePercentOrZero]

/-- The clamp of line 341 on a finite score. -/
theorem clamp_fin_inRange (x : ℚ) :
    JSNum.InRange 0 100 (JSNum.min (.fin 100) (JSNum.max (.fin 0) (.fin x))) := by
  simp only [JSNum.max, JSNum.min, JSNum.InRange]
  constructor
  · exact le_min (by norm_num) (le_max_left _ _)
  · exact min_le_left _ _

/-- The score on a list of quote entries that is not empty: it is finite and lies in
[0, 100], for every news payload. -/
theorem threat_score_inRange_of_ne_nil (toLowerCase : String → String) (news : JSVal)
    (stocks : List QuoteEntry) (now : String) (h : stocks ≠ []) :
    JSNum.InRange 0 100 (calculateThreatScore toLowerCase news stocks now).score := by
  unfold calculateThreatScore
  cases hn : newsScore toLowerCase news with
  | error m =>
    simp only [ScoreResult.score, JSNum.InRange]
    constructor <;> norm_num
  | ok hits =>
    simp only [ScoreResult.score, avgStockChange_of_ne_nil stocks h, JSNum.mul, JSNum.add]
    exact clamp_fin_inRange _

/-- The keyword hits counted by line 331 are at most 20. -/
theorem filterE_length_le {α : Type} (p : α → Except String Bool) (xs kept : List α)
    (h : filterE p xs = .ok kept) : kept.length ≤ xs.length := by
  induction xs generalizing kept with
  | nil =>
    simp [filterE] at h
    subst h
    simp
  | cons x rest ih =>
    unfold filterE at h
    cases hp : p x with
    | error m => simp [hp] at h
    | ok b =>
      cases hr : filterE p rest with
      | error m => simp [hp, hr] at h
      | ok kept0 =>
        simp [hp, hr] at h
        have := ih kept0 hr
        subst h
        cases b <;> simp <;> omega

/-- The score when every entry of a list that is not empty is a fallback: the stock factor
is 0 and the score is `50 + 2 * hits`, at most 90. -/
theorem threat_score_all_failed (toLowerCase : String → String) (news : JSVal)
    (stocks : List QuoteEntry) (now : String) (hits : Nat) (h : stocks ≠ [])
    (hfailed : ∀ s ∈ stocks, s.isFailed = true)
    (hn : newsScore toLowerCase news = .ok hits) :
    calculateThreatScore toLowerCase news stocks now
      = .computed (.fin (50 + 2 * (hits : ℚ))) now hits (.fin 0) ∧ hits ≤ 20 := by
  have hnone : stocks.filterMap QuoteEntry.quotedChange = [] := by
    rw [List.filterMap_eq_nil_iff]
    intro s hs
    have := hfailed s hs
    cases s <;> simp_all [QuoteEntry.isFailed, QuoteEntry.quotedChange]
  have hhits : hits ≤ 20 := by
    unfold newsScore at hn
    cases ha : prop news "articles" with
    | error m => simp [ha] at hn
    | ok articles =>
      cases articles with
      | arr xs =>
        cases hf : filterE (isMilitaryHeadline toLowerCase) (xs.take 20) with
        | error m => simp [ha, hf] at hn
        | ok kept =>
          simp [ha, hf] at hn
          have := filterE_length_le _ _ _ hf
          simp at this
          omega
      | _ => simp [ha] at hn <;> omega
  refine ⟨?_, hhits⟩
  have hq : (hits : ℚ) ≤ 20 := by exact_mod_cast hhits
  have hq0 : (0 : ℚ) ≤ hits := by positivity
  simp only [calculateThreatScore, hn, avgStockChange_of_ne_nil stocks h, hnone, JSNum.mul,
    JSNum.add, JSNum.max, JSNum.min]
  simp only [List.sum_nil, zero_div, zero_mul, add_zero]
  have h1 : Max.max (0 : ℚ) (50 + (hits : ℚ) * 2) = 50 + (hits : ℚ) * 2 :=
    max_eq_right (by linarith)
  have h2 : Min.min (100 : ℚ) (50 + (hits : ℚ) * 2) = 50 + (hits : ℚ) * 2 :=
    min_eq_right (by linarith)
  rw [h1, h2, mul_comm]

/-- On entries with a finite `changePercent` the sum of line 337 is the finite sum. -/
theorem foldl_widen (stocks : List QuoteEntry) (a : ℚ) :
    (stocks.map QuoteEntry.widen).foldl
        (fun sum s => JSNum.add sum s.changePercentOrZero) (.fin a)
      = .fin (stocks.foldl (fun sum s => sum + s.changePercentOrZero) a) := by
  induction stocks generalizing a with
  | nil => rfl
  | cons s rest ih =>
    have hs : s.widen.changePercentOrZero = .fin s.changePercentOrZero := by
      cases s with
      | quoted symbol c =>
        cases c with
        | none => rfl
        | some x =>
          by_cases hx : x = 0 <;>
            simp [QuoteEntry.widen, WideQuoteEntry.changePercentOrZero,
              QuoteEntry.changePercentOrZero, hx]
      | failed symbol e => rfl
    have hadd : JSNum.add (.fin a) (.fin s.changePercentOrZero)
        = .fin (a + s.changePercentOrZero) := rfl
    simp only [List.map_cons, List.foldl_cons, hs, hadd]
    exact ih _

/-- On entries with a finite `changePercent` the two embeddings of line 337 agree. -/
theorem avgStockChangeWide_widen (stocks : List QuoteEntry) :
    avgStockChangeWide (stocks.map QuoteEntry.widen) = avgStockChange stocks := by
  simp [avgStockChangeWide, avgStockChange, foldl_widen, JSNum.over]

/-- On entries with a finite `changePercent` the two embeddings of `calculateThreatScore`
agree. -/
theorem calculateThreatScoreWide_widen (toLowerCase : String → String) (news : JSVal)
    (stocks : List QuoteEntry) (now : String) :
    calculateThreatScoreWide toLowerCase news (stocks.map QuoteEntry.widen) now
      = calculateThreatScore toLowerCase news stocks now := by
  simp [calculateThreatScoreWide, calculateThreatScore, avgStockChangeWide_widen]

/-- The score on a list that is not empty of entries with a finite `changePercent` or none
lies in [0, 100], for every news payload. -/
theorem threat_score_wide_inRange_of_finite (toLowerCase : String → String) (news : JSVal)
    (stocks : List QuoteEntry) (now : String) (h : stocks ≠ []) :
    JSNum.InRange 0 100
      (calculateThreatScoreWide toLowerCase news (stocks.map QuoteEntry.widen) now).score := by
  rw [calculateThreatScoreWide_widen]
  exact threat_score_inRange_of_ne_nil toLowerCase news stocks now h

/-- C7 (code evaluated at the failing input): with seven quote entries of which one carries
the `changePercent` `Infinity` and one `-Infinity`, the sum of line 337 is `NaN`, the stock
factor is `NaN`, `Math.min(100, Math.max(0, NaN))` is `NaN`, and the score returned is `NaN`,
which is not in [0, 100]. -/
theorem threat_score_nan_on_opposite_infinities (toLowerCase : String → String)
    (now : String) :
    oppositeInfinities.length = 7 ∧
    avgStockChangeWide oppositeInfinities = .nan ∧
    calculateThreatScoreWide toLowerCase (obj [("articles", arr [])]) oppositeInfinities now
      = .computed .nan now 0 .nan ∧
    ¬ JSNum.InRange 0 100
      (calculateThreatScoreWide toLowerCase (obj [("articles", arr [])]) oppositeInfinities
        now).score := by
  have havg : avgStockChangeWide oppositeInfinities = .nan := by rfl
  have h : calculateThreatScoreWide toLowerCase (obj [("articles", arr [])])
      oppositeInfinities now = .computed .nan now 0 .nan := by
    simp [calculateThreatScoreWide, newsScore, JSVal.prop, lookup, filterE, havg,
      JSNum.mul, JSNum.add, JSNum.max, JSNum.min]
  refine ⟨rfl, havg, h, ?_⟩
  rw [h]
  simp [ScoreResult.score, JSNum.InRange]

/-- C8 as stated fails: with one symbol quoted at 7 percent and six fallback entries the
factor of the code is 7 / 7 = 1, the mean over the quoted symbols is 7. -/
theorem avgStockChange_counts_failed_entries :
    avgStockChange oneQuotedSixFailed = .fin 1 ∧ specStockFactor oneQuotedSixFailed = 7 ∧
    avgStockChange oneQuotedSixFailed ≠ .fin (specStockFactor oneQuotedSixFailed) := by
  have h1 : avgStockChange oneQuotedSixFailed = .fin 1 := by
    simp [avgStockChange, oneQuotedSixFailed, QuoteEntry.changePercentOrZero, JSNum.div]
  have h2 : specStockFactor oneQuotedSixFailed = 7 := by
    simp [specStockFactor, oneQuotedSixFailed]
  refine ⟨h1, h2, ?_⟩
  rw [h1, h2]
  intro h
  injection h with h
  norm_num at h

/-- C8 (amended): on a list of quote entries that is not empty, the stock factor is the sum
of `changePercent` over the entries that carry one, divided by the number of all entries,
fallback entries included; when every entry is a fallback it is 0. -/
theorem avgStockChange_is_sum_over_all_entries (stocks : List QuoteEntry) (h : stocks ≠ []) :
    avgStockChange stocks
      = .fin ((stocks.filterMap QuoteEntry.quotedChange).sum / (stocks.length : ℚ)) ∧
    ((∀ s ∈ stocks, s.isFailed = true) → avgStockChange stocks = .fin 0) := by
  refine ⟨avgStockChange_of_ne_nil stocks h, fun hfailed => ?_⟩
  have hnone : stocks.filterMap QuoteEntry.quotedChange = [] := by
    rw [List.filterMap_eq_nil_iff]
    intro s hs
    have := hfailed s hs
    cases s <;> simp_all [QuoteEntry.isFailed, QuoteEntry.quotedChange]
  rw [avgStockChange_of_ne_nil stocks h, hnone]
  simp

/-- C8 (amended) at one quote of 7 percent and six fallback entries: the factor is
7 / 7. -/
theorem avgStockChange_is_sum_over_all_entries_witness :
    avgStockChange oneQuotedSixFailed
      = .fin ((oneQuotedSixFailed.filterMap QuoteEntry.quotedChange).sum
          / (oneQuotedSixFailed.length : ℚ)) :=
  (avgStockChange_is_sum_over_all_entries oneQuotedSixFailed (by simp [oneQuotedSixFailed])).1

/-! ## Flight filter theorems -/

/-- When no test throws, `filterE` is the plain filter by the tests that returned `true`. -/
theorem filterE_of_total {α : Type} (p : α → Except String Bool) (xs : List α)
    (h : ∀ x ∈ xs, ∃ b, p x = .ok b) :
    filterE p xs = .ok (xs.filter fun x => match p x with
      | .ok true => true
      | _ => false) := by
  induction xs with
  | nil => rfl
  | cons x rest ih =>
    obtain ⟨b, hb⟩ := h x (List.mem_cons_self x rest)
    have hrest := ih fun y hy => h y (List.mem_cons_of_mem x hy)
    unfold filterE
    cases b <;> simp [hb, hrest, List.filter_cons]

/-- When no call throws, `mapE` is the plain map. -/
theorem mapE_of_total {α β : Type} (f : α → Except String β) (g : α → β) (xs : List α)
    (h : ∀ x ∈ xs, f x = .ok (g x)) : mapE f xs = .ok (xs.map g) := by
  induction xs with
  | nil => rfl
  | cons x rest ih =>
    have hx := h x (List.mem_cons_self x rest)
    have hrest := ih fun z hz => h z (List.mem_cons_of_mem x hz)
    unfold mapE
    simp [hx, hrest]

/-- The mapped object carries the identifier of the state vector under `icao`. -/
theorem mapState_icao (state f : JSVal) (h : mapState state = .ok f) :
    index state 0 = prop f "icao" := by
  unfold mapState at h
  cases h0 : index state 0 with
  | error m => simp [h0, bind, Except.bind] at h
  | ok icao =>
    simp only [h0, bind, Except.bind] at h
    split at h
    · simp at h
    · split at h
      · simp at h
      · split at h
        · simp at h
        · split at h
          · simp at h
          · split at h
            · simp at h
            · split at h
              · simp at h
              · split at h
                · simp at h
                · split at h
                  · simp at h
                  · simp only [pure, Except.pure, Except.ok.injEq] at h
                    subst h
                    simp [JSVal.prop, lookup]

/-- Two state vectors mapped to the same object pass or fail the filter together. -/
theorem passesFilter_of_mapState_eq (a b f : JSVal) (ha : mapState a = .ok f)
    (hb : mapState b = .ok f) : passesFilter a = passesFilter b := by
  have h : index a 0 = index b 0 := by
    rw [mapState_icao a f ha, mapState_icao b f hb]
  simp [passesFilter, isMilitary, h]

/-- On a feed whose state vectors are well formed, `getMilitaryFlights` returns the number of
vectors that pass the filter and the first 50 of their images, in feed order. -/
theorem getMilitaryFlights_of_wellFormed (status : Nat) (data : JSVal) (states : List JSVal)
    (hs : prop data "states" = .ok (arr states))
    (hw : ∀ st ∈ states, WellFormedState st) :
    getMilitaryFlights (.response status (.ok data))
      = obj [("count", num ((states.filter passesFilter).length : ℕ)),
          ("flights", arr (((states.filter passesFilter).map mapStateD).take 50))] := by
  have hfilter : filterE isMilitary states = .ok (states.filter passesFilter) :=
    filterE_of_total isMilitary states fun st hst => (hw st hst).1
  have hmap : mapE mapState (states.filter passesFilter)
      = .ok ((states.filter passesFilter).map mapStateD) := by
    refine mapE_of_total mapState mapStateD (states.filter passesFilter) ?_
    intro st hst
    rw [List.mem_filter] at hst
    have h2 := hst.2
    have h1 : isMilitary st = .ok true := by
      unfold passesFilter at h2
      split at h2
      · assumption
      · simp at h2
    obtain ⟨f, hf⟩ := (hw st hst.1).2 h1
    simp [mapStateD, hf]
  simp [getMilitaryFlights, getMilitaryFlightsBody, fetchJson, hs, militaryFlights, hfilter,
    hmap, bind, Except.bind, pure, Except.pure]

/-- C10 as stated fails, in two ways.  In a feed of 51 state vectors that all pass the
filter, the last one passes the filter and is mapped to a flight record, and that record is
not among the returned flights (the first 50); the count is 51.  In a feed whose first entry
is `null`, the filter callback throws on that entry, the client returns its fallback, and
the record of the second entry, which passes the filter, is not returned. -/
theorem getMilitaryFlights_drops_51st :
    passesFilter (stateVector "16FFFF" "NAVY01  ") = true ∧
    mapState (stateVector "16FFFF" "NAVY01  ") = .ok (flightRecord "16FFFF" "NAVY01") ∧
    prop feed51 "states" = .ok (arr (List.replicate 50 (stateVector "AE0001" "RCH001  ")
      ++ [stateVector "16FFFF" "NAVY01  "])) ∧
    getMilitaryFlights (.response 200 (.ok feed51))
      = obj [("count", num 51),
          ("flights", arr (List.replicate 50 (flightRecord "AE0001" "RCH001")))] ∧
    flightRecord "16FFFF" "NAVY01" ∉ flightsOf (getMilitaryFlights (.response 200 (.ok feed51)))
    ∧
    passesFilter (stateVector "AE1234" "RCH123  ") = true ∧
    mapState (stateVector "AE1234" "RCH123  ") = .ok (flightRecord "AE1234" "RCH123") ∧
    prop feedWithNull "states" = .ok (arr [null, stateVector "AE1234" "RCH123  "]) ∧
    getMilitaryFlights (.response 200 (.ok feedWithNull))
      = flightsFallback "Cannot read properties of null (reading 0)" ∧
    flightRecord "AE1234" "RCH123"
      ∉ flightsOf (getMilitaryFlights (.response 200 (.ok feedWithNull))) := by
  have h : getMilitaryFlights (.response 200 (.ok feed51))
      = obj [("count", num 51),
          ("flights", arr (List.replicate 50 (flightRecord "AE0001" "RCH001")))] := by rfl
  have h2 : getMilitaryFlights (.response 200 (.ok feedWithNull))
      = flightsFallback "Cannot read properties of null (reading 0)" := by rfl
  refine ⟨by rfl, by rfl, by rfl, h, ?_, by rfl, by rfl, by rfl, h2, ?_⟩
  · rw [h]
    simp [flightsOf, lookup, List.mem_replicate, flightRecord]
  · rw [h2]
    simp [flightsOf, flightsFallback, lookup]

/-- On a feed whose state vectors are well formed, every returned flight is the image of a
state vector of the feed that passes the prefix filter; the image of a vector that does not
pass it is never returned; the image of a vector that passes it is returned when fewer than
50 passing vectors precede it in the feed; the image has the fields `icao`, `callsign`,
`country`, `longitude`, `latitude`, `altitude`, `velocity`, `timestamp` read from positions
0, 1 (trimmed), 2, 5, 6, 7, 9, 3. -/
theorem flights_of_wellFormed_feed (status : Nat) (data : JSVal)
    (states : List JSVal) (hs : prop data "states" = .ok (arr states))
    (hw : ∀ st ∈ states, WellFormedState st) :
    (∀ f ∈ flightsOf (getMilitaryFlights (.response status (.ok data))),
      ∃ st ∈ states, passesFilter st = true ∧ mapState st = .ok f) ∧
    (∀ v f, passesFilter v = false → mapState v = .ok f →
      f ∉ flightsOf (getMilitaryFlights (.response status (.ok data)))) ∧
    (∀ pre v post f, states = pre ++ v :: post → passesFilter v = true →
      mapState v = .ok f → (pre.filter passesFilter).length < 50 →
      f ∈ flightsOf (getMilitaryFlights (.response status (.ok data)))) ∧
    (∀ v f, mapState v = .ok f → ∃ s0 s1 s2 s5 s6 s7 s9 s3 c,
      index v 0 = .ok s0 ∧ index v 1 = .ok s1 ∧ index v 2 = .ok s2 ∧ index v 5 = .ok s5 ∧
      index v 6 = .ok s6 ∧ index v 7 = .ok s7 ∧ index v 9 = .ok s9 ∧ index v 3 = .ok s3 ∧
      callsignOf s1 = .ok c ∧
      f = obj [("icao", s0), ("callsign", c), ("country", s2), ("longitude", s5),
        ("latitude", s6), ("altitude", s7), ("velocity", s9), ("timestamp", s3)]) := by
  have hr := getMilitaryFlights_of_wellFormed status data states hs hw
  have hfl : flightsOf (getMilitaryFlights (.response status (.ok data)))
      = ((states.filter passesFilter).map mapStateD).take 50 := by
    rw [hr]
    simp [flightsOf, lookup]
  have himage : ∀ st ∈ states, passesFilter st = true → mapState st = .ok (mapStateD st) := by
    intro st hst hm
    have h1 : isMilitary st = .ok true := by
      unfold passesFilter at hm
      split at hm
      · assumption
      · simp at hm
    obtain ⟨f, hf⟩ := (hw st hst).2 h1
    simp [mapStateD, hf]
  have hfrom : ∀ f ∈ flightsOf (getMilitaryFlights (.response status (.ok data))),
      ∃ st ∈ states, passesFilter st = true ∧ mapState st = .ok f := by
    intro f hf
    rw [hfl] at hf
    have hf2 := List.mem_of_mem_take hf
    rw [List.mem_map] at hf2
    obtain ⟨st, hst, hst2⟩ := hf2
    rw [List.mem_filter] at hst
    exact ⟨st, hst.1, hst.2, by rw [← hst2]; exact himage st hst.1 hst.2⟩
  refine ⟨hfrom, ?_, ?_, ?_⟩
  · intro v f hv hvf hmem
    obtain ⟨st, _, hst, hstf⟩ := hfrom f hmem
    have := passesFilter_of_mapState_eq v st f hvf hstf
    rw [hv, hst] at this
    exact Bool.false_ne_true this
  · intro pre v post f hsplit hv hvf hlt
    have hvmem : v ∈ states := by
      rw [hsplit]
      simp
    have hfv : mapStateD v = f := by
      simp [mapStateD, hvf]
    rw [hfl, hsplit]
    simp only [List.filter_append, List.filter_cons, hv, if_true, List.map_append, List.map_cons,
      hfv]
    rw [List.take_append_eq_append_take]
    apply List.mem_append_right
    have hlen : ((pre.filter passesFilter).map mapStateD).length < 50 := by
      simpa using hlt
    obtain ⟨k, hk⟩ : ∃ k, 50 - ((pre.filter passesFilter).map mapStateD).length = k + 1 :=
      ⟨50 - ((pre.filter passesFilter).map mapStateD).length - 1, by omega⟩
    rw [hk, List.take_succ_cons]
    exact List.mem_cons_self _ _
  · intro v f hvf
    unfold mapState at hvf
    cases h0 : index v 0 with
    | error m => simp [h0, bind, Except.bind] at hvf
    | ok s0 =>
    cases h1 : index v 1 with
    | error m => simp [h0, h1, bind, Except.bind] at hvf
    | ok s1 =>
    cases hc : callsignOf s1 with
    | error m => simp [h0, h1, hc, bind, Except.bind] at hvf
    | ok c =>
    cases h2 : index v 2 with
    | error m => simp [h0, h1, hc, h2, bind, Except.bind] at hvf
    | ok s2 =>
    cases h5 : index v 5 with
    | error m => simp [h0, h1, hc, h2, h5, bind, Except.bind] at hvf
    | ok s5 =>
    cases h6 : index v 6 with
    | error m => simp [h0, h1, hc, h2, h5, h6, bind, Except.bind] at hvf
    | ok s6 =>
    cases h7 : index v 7 with
    | error m => simp [h0, h1, hc, h2, h5, h6, h7, bind, Except.bind] at hvf
    | ok s7 =>
    cases h9 : index v 9 with
    | error m => simp [h0, h1, hc, h2, h5, h6, h7, h9, bind, Except.bind] at hvf
    | ok s9 =>
    cases h3 : index v 3 with
    | error m => simp [h0, h1, hc, h2, h5, h6, h7, h9, h3, bind, Except.bind] at hvf
    | ok s3 =>
      simp [h0, h1, hc, h2, h5, h6, h7, h9, h3, bind, Except.bind, pure, Except.pure] at hvf
      exact ⟨s0, s1, s2, s5, s6, s7, s9, s3, c, rfl, rfl, rfl, rfl, rfl, rfl, rfl, rfl, hc,
        hvf.symm⟩

/-- When `filterE` returns, no test threw. -/
theorem filterE_ok_total {α : Type} (p : α → Except String Bool) (xs kept : List α)
    (h : filterE p xs = .ok kept) : ∀ x ∈ xs, ∃ b, p x = .ok b := by
  induction xs generalizing kept with
  | nil => intro x hx; simp at hx
  | cons y rest ih =>
    unfold filterE at h
    cases hp : p y with
    | error m => simp [hp] at h
    | ok b =>
      cases hr : filterE p rest with
      | error m => simp [hp, hr] at h
      | ok kept0 =>
        intro x hx
        rcases List.mem_cons.mp hx with hxy | hxr
        · subst hxy; exact ⟨b, hp⟩
        · exact ih kept0 hr x hxr

/-- When `mapE` returns, no call threw. -/
theorem mapE_ok_total {α β : Type} (f : α → Except String β) (xs : List α) (ys : List β)
    (h : mapE f xs = .ok ys) : ∀ x ∈ xs, ∃ y, f x = .ok y := by
  induction xs generalizing ys with
  | nil => intro x hx; simp at hx
  | cons z rest ih =>
    unfold mapE at h
    cases hf : f z with
    | error m => simp [hf] at h
    | ok y =>
      cases hr : mapE f rest with
      | error m => simp [hf, hr] at h
      | ok ys0 =>
        intro x hx
        rcases List.mem_cons.mp hx with hxz | hxr
        · subst hxz; exact ⟨y, hf⟩
        · exact ih ys0 hr x hxr

/-- When a callback throws on a state vector of the feed, `getMilitaryFlights` returns its
fallback. -/
theorem getMilitaryFlights_fallback_of_not_wellFormed (status : Nat) (data : JSVal)
    (states : List JSVal) (hs : prop data "states" = .ok (arr states))
    (hw : ¬ ∀ st ∈ states, WellFormedState st) :
    ∃ m, getMilitaryFlights (.response status (.ok data)) = flightsFallback m := by
  unfold getMilitaryFlights
  cases hb : getMilitaryFlightsBody (.response status (.ok data)) with
  | error m => exact ⟨m, rfl⟩
  | ok r =>
    exfalso
    apply hw
    simp only [getMilitaryFlightsBody, fetchJson, hs, militaryFlights, bind, Except.bind] at hb
    cases hf : filterE isMilitary states with
    | error m => simp [hf] at hb
    | ok kept =>
      have htotal := filterE_ok_total isMilitary states kept hf
      have hkept : kept = states.filter passesFilter := by
        have := filterE_of_total isMilitary states htotal
        rw [hf] at this
        exact Except.ok.inj this
      cases hm : mapE mapState kept with
      | error m => simp [hf, hm] at hb
      | ok flights =>
        have himg := mapE_ok_total mapState kept flights hm
        intro st hst
        refine ⟨htotal st hst, fun htrue => ?_⟩
        apply himg st
        rw [hkept, List.mem_filter]
        exact ⟨hst, by simp [passesFilter, htrue]⟩

/-- C10 (amended): for every state-vector feed, every returned flight is the image of a
state vector of the feed that passes the prefix filter, the image of a vector that does not
pass it is never returned, and at most 50 flights are returned.  When no callback throws on
a vector of the feed, `count` is the number of vectors that pass the filter and the returned
flights are the images of the first 50 of them, in feed order, so the image of a passing
vector is returned when fewer than 50 passing vectors precede it.  When a callback throws
on a vector of the feed, the client returns its fallback.  The image of a vector has the
fields `icao`, `callsign`, `country`, `longitude`, `latitude`, `altitude`, `velocity`,
`timestamp` read from positions 0, 1 (trimmed), 2, 5, 6, 7, 9, 3. -/
theorem getMilitaryFlights_returns_first_50 (status : Nat) (data : JSVal)
    (states : List JSVal) (hs : prop data "states" = .ok (arr states)) :
    (∀ f ∈ flightsOf (getMilitaryFlights (.response status (.ok data))),
      ∃ st ∈ states, passesFilter st = true ∧ mapState st = .ok f) ∧
    (∀ v f, passesFilter v = false → mapState v = .ok f →
      f ∉ flightsOf (getMilitaryFlights (.response status (.ok data)))) ∧
    (flightsOf (getMilitaryFlights (.response status (.ok data)))).length ≤ 50 ∧
    ((∀ st ∈ states, WellFormedState st) →
      getMilitaryFlights (.response status (.ok data))
        = obj [("count", num ((states.filter passesFilter).length : ℕ)),
            ("flights", arr (((states.filter passesFilter).map mapStateD).take 50))] ∧
      (∀ st ∈ states, passesFilter st = true → mapState st = .ok (mapStateD st)) ∧
      (∀ pre v post f, states = pre ++ v :: post → passesFilter v = true →
        mapState v = .ok f → (pre.filter passesFilter).length < 50 →
        f ∈ flightsOf (getMilitaryFlights (.response status (.ok data))))) ∧
    ((¬ ∀ st ∈ states, WellFormedState st) →
      ∃ m, getMilitaryFlights (.response status (.ok data)) = flightsFallback m) ∧
    (∀ v f, mapState v = .ok f → ∃ s0 s1 s2 s5 s6 s7 s9 s3 c,
      index v 0 = .ok s0 ∧ index v 1 = .ok s1 ∧ index v 2 = .ok s2 ∧ index v 5 = .ok s5 ∧
      index v 6 = .ok s6 ∧ index v 7 = .ok s7 ∧ index v 9 = .ok s9 ∧ index v 3 = .ok s3 ∧
      callsignOf s1 = .ok c ∧
      f = obj [("icao", s0), ("callsign", c), ("country", s2), ("longitude", s5),
        ("latitude", s6), ("altitude", s7), ("velocity", s9), ("timestamp", s3)]) := by
  by_cases hw : ∀ st ∈ states, WellFormedState st
  · have hall := flights_of_wellFormed_feed status data states hs hw
    have hr := getMilitaryFlights_of_wellFormed status data states hs hw
    refine ⟨hall.1, hall.2.1, ?_, fun _ => ⟨hr, ?_, hall.2.2.1⟩, fun hn => absurd hw hn,
      hall.2.2.2⟩
    · rw [hr]
      simp only [flightsOf, lookup]
      simp [List.length_take]
    · intro st hst hp
      have h1 : isMilitary st = .ok true := by
        unfold passesFilter at hp
        split at hp
        · assumption
        · simp at hp
      obtain ⟨f, hf⟩ := (hw st hst).2 h1
      simp [mapStateD, hf]
  · obtain ⟨m, hm⟩ := getMilitaryFlights_fallback_of_not_wellFormed status data states hs hw
    have hempty : flightsOf (getMilitaryFlights (.response status (.ok data))) = [] := by
      rw [hm]
      simp [flightsOf, flightsFallback, lookup]
    refine ⟨?_, ?_, ?_, fun h => absurd h hw, fun _ => ⟨m, hm⟩, ?_⟩
    · intro f hf
      rw [hempty] at hf
      simp at hf
    · intro v f _ _
      rw [hempty]
      simp
    · rw [hempty]
      simp
    · exact (flights_of_wellFormed_feed 0 (obj [("states", arr [])]) [] rfl
        (fun st hst => by simp at hst)).2.2.2

/-- C10 (amended) at a feed of two state vectors: the image of the vector with identifier
`AE1234` is returned, the image of the vector with identifier `a0b1c2` is not, and at most
50 flights are returned. -/
theorem getMilitaryFlights_returns_first_50_witness :
    flightRecord "AE1234" "RCH123" ∈ flightsOf (getMilitaryFlights (.response 200 (.ok feed2))) ∧
    flightRecord "a0b1c2" "UAL12" ∉ flightsOf (getMilitaryFlights (.response 200 (.ok feed2))) ∧
    (flightsOf (getMilitaryFlights (.response 200 (.ok feed2)))).length ≤ 50 :=
  have hw : ∀ st ∈ [stateVector "a0b1c2" "UAL12   ", stateVector "AE1234" "RCH123  "],
      WellFormedState st := by
    intro st hst
    simp only [List.mem_cons, List.mem_singleton, List.not_mem_nil, or_false] at hst
    rcases hst with h | h <;> subst h
    · exact ⟨⟨false, rfl⟩, fun h => ⟨flightRecord "a0b1c2" "UAL12", rfl⟩⟩
    · exact ⟨⟨true, rfl⟩, fun h => ⟨flightRecord "AE1234" "RCH123", rfl⟩⟩
  have h := getMilitaryFlights_returns_first_50 200 feed2
    [stateVector "a0b1c2" "UAL12   ", stateVector "AE1234" "RCH123  "] rfl
  ⟨(h.2.2.2.1 hw).2.2 [stateVector "a0b1c2" "UAL12   "] (stateVector "AE1234" "RCH123  ") []
      (flightRecord "AE1234" "RCH123") rfl rfl rfl (by decide),
   h.2.1 (stateVector "a0b1c2" "UAL12   ") (flightRecord "a0b1c2" "UAL12") rfl rfl,
   h.2.2.1⟩

end MilitaryIntel
